import Mathlib

/-!
Verification development for the course-content synchronization utility
(`list_course_assignments.py`, final revision at the bottom of the file).

The script is shallowly embedded: HTTP responses are supplied by an
environment (`Env`), the filesystem is an explicit state (`FS`), Python
exceptions caught by a `try` block are modelled with `Except` values or
an explicit escape channel, and the global `COURSE_ALIASES` list is a
parameter of `main`.
-/

/-- JSON values, the shape of every parsed HTTP response body.
Objects are association lists from field names to values. -/
inductive Json where
  | null
  | bool (b : Bool)
  | num (n : Int)
  | str (s : String)
  | arr (xs : List Json)
  | obj (fields : List (String × Json))

/-- Python `dict.get(k)`: `none` when the key is absent (or the value is
not a dict, in which case the real code raises `AttributeError`; both
paths lead to the same observable behavior at the single call site in
`login`). -/
def Json.get? : Json → String → Option Json
  | Json.obj fields, k => List.lookup k fields
  | _, _ => none

/-- Python subscript `j[k]`: `KeyError` when the key is absent,
`TypeError` when `j` is not a dict. -/
def Json.getItem : Json → String → Except String Json
  | Json.obj fields, k =>
    match List.lookup k fields with
    | some v => Except.ok v
    | none => Except.error ("KeyError: " ++ k)
  | _, k => Except.error ("TypeError: " ++ k)

/-- Python `j.get(k, d)`: the value when present, the default when the
key is absent, `AttributeError` when `j` is not a dict. -/
def Json.getD : Json → String → Json → Except String Json
  | Json.obj fields, k, d => Except.ok ((List.lookup k fields).getD d)
  | _, _, _ => Except.error "AttributeError: get"

/-- Python truthiness of a JSON value (`if not assignments`). -/
def Json.falsy : Json → Bool
  | Json.null => true
  | Json.bool b => !b
  | Json.num n => n == 0
  | Json.str s => s == ""
  | Json.arr xs => xs.isEmpty
  | Json.obj fields => fields.isEmpty

/-- Iterating a JSON value with a Python `for` loop whose body indexes
each element by a string key.  Only an array yields usable items; every
other shape raises (`TypeError` at the loop header, or per-element when
iterating a string or the keys of a dict — in all cases the exception
lands in the same enclosing handler as the loop header failure). -/
def Json.iter : Json → Except String (List Json)
  | Json.arr xs => Except.ok xs
  | _ => Except.error "TypeError: expected a list"

/-- Model of Python `str.isalnum` (alphanumeric character table). -/
def py_isalnum (c : Char) : Bool := c.isAlphanum

/-- Model of Python `str.isspace` (whitespace character table). -/
def py_isspace (c : Char) : Bool := c.isWhitespace

/-- The character filter of `sanitize_filename`:
`c.isalnum() or c in " -_"`. -/
def keepChar (c : Char) : Bool := py_isalnum c || c == ' ' || c == '-' || c == '_'

/-- Python `str.strip()`: remove leading and trailing whitespace. -/
def pyStrip (l : List Char) : List Char :=
  ((l.dropWhile py_isspace).reverse.dropWhile py_isspace).reverse

/-- `sanitize_filename(name)`:
`"".join(c for c in name if c.isalnum() or c in " -_").strip()`. -/
def sanitize_filename (name : String) : String :=
  String.mk (pyStrip (name.data.filter keepChar))

/-- `os.path.join` for the relative paths this script builds. -/
def pjoin (a b : String) : String := a ++ "/" ++ b

/-- Contents of an extracted file.  A raw zip archive, or a file whose
bytes we track up to JSON parsing (plain text is `Json.str`). -/
inductive ZipData where
  | bad
  | good (entries : List (String × Json))

/-- The body of a streamed download as the `for chunk in
response.iter_content(...)` loop observes it: either the complete bytes
arrive, or a transport error (`requests` raises a `RequestException`)
interrupts the stream mid-way after a partial prefix of the bytes
(`written`) has already been written to the open file.  The archive is
only opened with `zipfile` when the stream completes. -/
inductive StreamBody where
  | complete (z : ZipData)
  | interrupted (written : ZipData) (e : String)

/-- Content stored at a path in the modelled filesystem. -/
inductive FileData where
  | zip (z : ZipData)
  | json (j : Json)

/-- Filesystem state: the set of created directories and the files with
their contents. -/
structure FS where
  dirs : List String
  files : List (String × FileData)

def FS.empty : FS := ⟨[], []⟩

/-- `os.makedirs(p, exist_ok=True)`. -/
def FS.makedirs (fs : FS) (p : String) : FS :=
  ⟨if p ∈ fs.dirs then fs.dirs else fs.dirs ++ [p], fs.files⟩

/-- `open(p, "w")` followed by writing `d`: replaces any existing file. -/
def FS.writeFile (fs : FS) (p : String) (d : FileData) : FS :=
  ⟨fs.dirs, fs.files.filter (fun e => !(e.1 == p)) ++ [(p, d)]⟩

/-- `os.remove(p)`. -/
def FS.removeFile (fs : FS) (p : String) : FS :=
  ⟨fs.dirs, fs.files.filter (fun e => !(e.1 == p))⟩

/-- Content of the file at `p`, when one exists. -/
def FS.readFile (fs : FS) (p : String) : Option FileData :=
  ((fs.files.filter (fun e => e.1 == p)).getLast?).map Prod.snd

/-- `os.path.exists(p)` restricted to files. -/
def FS.fileExists (fs : FS) (p : String) : Bool :=
  fs.files.any (fun e => e.1 == p)

inductive LogLevel where
  | info
  | warning
  | error
deriving DecidableEq

/-- Result of one `download_and_unzip` call: the filesystem after the
call, the log entries it emitted, and — in `raised` — the exception (if
any) escaping to the caller.  The real function catches
`RequestException` and `BadZipFile` internally, so `raised` is always
`none`; the field makes "surfaced to the caller" statable. -/
structure DUZOut where
  fs : FS
  log : List (LogLevel × String)
  raised : Option String

/-- `requests.Response.raise_for_status()` raises for 4xx and 5xx. -/
def raise_for_status (code : Nat) : Bool :=
  decide (400 ≤ code) && decide (code < 600)

/-- `zipfile.ZipFile.extractall(folder)`: write every entry of the
archive under `folder`, later entries overwriting earlier ones. -/
def extractall (fs : FS) (folder : String) (entries : List (String × Json)) : FS :=
  entries.foldl (fun acc e => FS.writeFile acc (pjoin folder e.1) (FileData.json e.2)) fs

def warn404 (problem_alias : String) : String :=
  "Problem " ++ problem_alias ++ " not found or access denied (404)."

def dlFailMsg (problem_alias : String) : String :=
  "Failed to download " ++ problem_alias

def unzipFailMsg (zip_path : String) : String :=
  "Failed to unzip: " ++ zip_path

/-- `download_and_unzip(problem_alias, assignment_folder)`.  The
`response` argument is the outcome of the streamed GET to the download
endpoint.  `Except.error` is a `RequestException` raised by
`requests.get` itself, before any filesystem operation.  On a success
status, the directory is created and the body is streamed into the
archive file; a `RequestException` raised mid-stream by `iter_content`
(`StreamBody.interrupted`) reaches the same outer handler only after
`os.makedirs` has run and the partial prefix has been written, so the
directory and the partial archive file stay on disk. -/
def download_and_unzip (problem_alias assignment_folder : String)
    (response : Except String (Nat × StreamBody)) (fs : FS) : DUZOut :=
  match response with
  | Except.error _ => ⟨fs, [(LogLevel.error, dlFailMsg problem_alias)], none⟩
  | Except.ok (code, body) =>
    if code = 404 then
      ⟨fs, [(LogLevel.warning, warn404 problem_alias)], none⟩
    else if raise_for_status code then
      ⟨fs, [(LogLevel.error, dlFailMsg problem_alias)], none⟩
    else
      let problem_folder := pjoin assignment_folder (sanitize_filename problem_alias)
      let fs1 := fs.makedirs problem_folder
      let zip_path := pjoin problem_folder (problem_alias ++ ".zip")
      match body with
      | StreamBody.interrupted written _ =>
        let fs2 := fs1.writeFile zip_path (FileData.zip written)
        ⟨fs2, [(LogLevel.error, dlFailMsg problem_alias)], none⟩
      | StreamBody.complete z =>
        let fs2 := fs1.writeFile zip_path (FileData.zip z)
        match z with
        | ZipData.bad => ⟨fs2, [(LogLevel.error, unzipFailMsg zip_path)], none⟩
        | ZipData.good entries =>
          let fs3 := extractall fs2 problem_folder entries
          let fs4 := fs3.removeFile zip_path
          ⟨fs4, [(LogLevel.info, "Extracted: " ++ problem_alias)], none⟩

/-- The remote side of one run: the response each HTTP request of the
script would receive.  Responses are keyed by the aliases that appear in
the request URL or parameters.  For the JSON endpoints `Except.error` is
a transport error or a non-JSON body (an uncaught-at-that-site Python
exception); for `download` it is a `RequestException` from
`requests.get` itself, while a mid-stream failure of the body is
`StreamBody.interrupted`. -/
structure Env where
  login_resp : Except String (Nat × Json)
  course_details : String → Except String Json
  list_assignments : String → Except String Json
  assignment_details : String → String → Except String Json
  download : String → Except String (Nat × StreamBody)

/-- `login()`: POST the credentials, `raise_for_status`, parse the body,
fail unless the `status` field is the string `"ok"`. -/
def login (env : Env) : Except String Unit :=
  match env.login_resp with
  | Except.error e => Except.error e
  | Except.ok (code, body) =>
    if raise_for_status code then Except.error "HTTPError"
    else
      match body.get? "status" with
      | some (Json.str s) => if s = "ok" then Except.ok () else Except.error "Login failed"
      | _ => Except.error "Login failed"

/-- `get_course_details(course_alias, course_base_folder)`: fetch the
details, create the course folder, persist `course_settings.json`. -/
def get_course_details (env : Env) (course_alias course_base_folder : String)
    (fs : FS) : Except String (Json × FS) :=
  match env.course_details course_alias with
  | Except.error e => Except.error e
  | Except.ok details =>
    let course_folder := pjoin course_base_folder course_alias
    let fs1 := fs.makedirs course_folder
    let fs2 := fs1.writeFile (pjoin course_folder "course_settings.json") (FileData.json details)
    Except.ok (details, fs2)

/-- `get_assignments(course_alias)`: the `assignments` field of the
listing response; indexing raises (`KeyError`) when the field is
absent. -/
def get_assignments (env : Env) (course_alias : String) : Except String Json :=
  match env.list_assignments course_alias with
  | Except.error e => Except.error e
  | Except.ok j => j.getItem "assignments"

/-- `get_assignment_details(course_alias, assignment_alias)`. -/
def get_assignment_details (env : Env) (course_alias assignment_alias : String) :
    Except String Json :=
  env.assignment_details course_alias assignment_alias

/-- Mutable state of one `main` run: the filesystem, the growing
`all_problems` manifest list, and the log. -/
structure RunState where
  fs : FS
  all_problems : List Json
  log : List (LogLevel × String)

/-- A Python `for` loop over `xs` whose body may raise: the second
component of the accumulator is the exception escaping the loop, which
stops iteration at the item that raised it. -/
def foldE (f : RunState → Json → RunState × Option String) :
    RunState × Option String → List Json → RunState × Option String
  | acc, [] => acc
  | (s, some e), _ :: _ => (s, some e)
  | (s, none), x :: xs => foldE f (f s x) xs

/-- The manifest path recorded for a synced problem:
`os.path.join(BASE_COURSE_FOLDER, course_alias, assignment_alias,
sanitize_filename(problem["alias"]))`. -/
def relPath (course_alias assignment_alias problem_alias : String) : String :=
  pjoin (pjoin (pjoin "Courses" course_alias) assignment_alias)
    (sanitize_filename problem_alias)

/-- Body of the per-problem loop in `main` (the innermost `try`).
`problem["alias"]` is evaluated inside the `try`, but on a `KeyError`
the handler evaluates `problem["alias"]` again while formatting its log
message, so that exception escapes to the per-assignment handler
(second component `some`).  A present but non-string alias fails later
(inside `os.path.join` / `sanitize_filename`), which the handler can
format, so it is logged and contained.  When the alias is a string,
`download_and_unzip` catches its own errors and the manifest entry is
appended unconditionally afterward. -/
def process_problem (env : Env) (course_alias assignment_alias assignment_folder : String)
    (s : RunState) (problem : Json) : RunState × Option String :=
  match problem.getItem "alias" with
  | Except.error e => (s, some e)
  | Except.ok (Json.str al) =>
    let out := download_and_unzip al assignment_folder (env.download al) s.fs
    match out.raised with
    | some _ =>
      ({ s with fs := out.fs,
                log := s.log ++ out.log
                  ++ [(LogLevel.error, "Error while processing problem " ++ al)] }, none)
    | none =>
      ({ fs := out.fs,
         all_problems := s.all_problems
           ++ [Json.obj [("path", Json.str (relPath course_alias assignment_alias al))]],
         log := s.log ++ out.log }, none)
  | Except.ok _ =>
    ({ s with log := s.log ++ [(LogLevel.error, "Error while processing problem")] }, none)

/-- Body of the per-assignment loop in `main`.  `assignment["alias"]`
and `assignment["name"]` are read before the per-assignment `try`, so a
`KeyError` there escapes to the per-course handler.  Everything after —
fetching details, creating the folder, writing
`assignment_settings.json`, and the whole problems loop — is inside the
`try` and any exception is logged and contained here. -/
def process_assignment (env : Env) (course_alias course_folder : String)
    (s : RunState) (assignment : Json) : RunState × Option String :=
  match assignment.getItem "alias" with
  | Except.error e => (s, some e)
  | Except.ok aliasJ =>
    match assignment.getItem "name" with
    | Except.error e => (s, some e)
    | Except.ok _ =>
      match aliasJ with
      | Json.str assignment_alias =>
        (match get_assignment_details env course_alias assignment_alias with
         | Except.error _ =>
           ({ s with log := s.log
                ++ [(LogLevel.error, "Failed to process assignment " ++ assignment_alias)] },
            none)
         | Except.ok details =>
           let assignment_folder := pjoin course_folder assignment_alias
           let fs1 := s.fs.makedirs assignment_folder
           let fs2 := fs1.writeFile (pjoin assignment_folder "assignment_settings.json")
             (FileData.json details)
           let s1 := { s with fs := fs2 }
           match details.getD "problems" (Json.arr []) with
           | Except.error _ =>
             ({ s1 with log := s1.log
                  ++ [(LogLevel.error, "Failed to process assignment " ++ assignment_alias)] },
              none)
           | Except.ok problemsJ =>
             match problemsJ.iter with
             | Except.error _ =>
               ({ s1 with log := s1.log
                    ++ [(LogLevel.error, "Failed to process assignment " ++ assignment_alias)] },
                none)
             | Except.ok problems =>
               match foldE (process_problem env course_alias assignment_alias assignment_folder)
                   (s1, none) problems with
               | (s2, some _) =>
                 ({ s2 with log := s2.log
                      ++ [(LogLevel.error, "Failed to process assignment " ++ assignment_alias)] },
                  none)
               | (s2, none) => (s2, none))
      | _ =>
        ({ s with log := s.log ++ [(LogLevel.error, "Failed to process assignment")] }, none)

/-- Body of the per-course loop in `main`: its `try` wraps everything,
so no exception escapes this function. -/
def process_course (env : Env) (s : RunState) (course_alias : String) : RunState :=
  match get_course_details env course_alias "Courses" s.fs with
  | Except.error _ =>
    { s with log := s.log ++ [(LogLevel.error, "Failed to process course " ++ course_alias)] }
  | Except.ok (_, fs1) =>
    let s1 := { s with fs := fs1 }
    match get_assignments env course_alias with
    | Except.error _ =>
      { s1 with log := s1.log ++ [(LogLevel.error, "Failed to process course " ++ course_alias)] }
    | Except.ok assignmentsJ =>
      if assignmentsJ.falsy then
        { s1 with log := s1.log ++ [(LogLevel.warning, "No assignments found in " ++ course_alias)] }
      else
        let course_folder := pjoin "Courses" course_alias
        match assignmentsJ.iter with
        | Except.error _ =>
          { s1 with log := s1.log
              ++ [(LogLevel.error, "Failed to process course " ++ course_alias)] }
        | Except.ok assignments =>
          match foldE (process_assignment env course_alias course_folder) (s1, none) assignments with
          | (s2, some _) =>
            { s2 with log := s2.log
                ++ [(LogLevel.error, "Failed to process course " ++ course_alias)] }
          | (s2, none) => s2

/-- `main()` after `handle_input`: log in (an uncaught exception here
terminates the process with a non-zero status, modelled as
`Except.error`), create `Courses/`, run every configured course, then
write the accumulated manifest to `problems.json` exactly once.
(Named `main_run` because Lean reserves `main` for executables.) -/
def main_run (env : Env) (course_aliases : List String) : Except String RunState :=
  match login env with
  | Except.error e => Except.error e
  | Except.ok _ =>
    let s0 : RunState := ⟨FS.empty.makedirs "Courses", [], []⟩
    let s1 := course_aliases.foldl (process_course env) s0
    Except.ok { s1 with
      fs := s1.fs.writeFile "problems.json"
        (FileData.json (Json.obj [("problems", Json.arr s1.all_problems)])) }

/-- The manifest produced by a run (empty when the run aborts at login). -/
def mainProblems (env : Env) (course_aliases : List String) : List Json :=
  match main_run env course_aliases with
  | Except.ok s => s.all_problems
  | Except.error _ => []

/-- The filesystem produced by a run (empty when the run aborts at login). -/
def mainFS (env : Env) (course_aliases : List String) : FS :=
  match main_run env course_aliases with
  | Except.ok s => s.fs
  | Except.error _ => FS.empty

/-- Whether an `Except` value is a success. -/
def exceptOk {α : Type} (x : Except String α) : Bool :=
  match x with
  | Except.ok _ => true
  | Except.error _ => false

/-- Manifest entries contributed by one problems list: every entry that
carries an `alias` key with a string value yields one manifest record,
in order, regardless of the download outcome; a missing `alias` key
stops the rest of the list (its `KeyError` escapes to the assignment
handler); a non-string alias is logged and skipped. -/
def problemsEntries (course_alias assignment_alias : String) : List Json → List Json
  | [] => []
  | p :: ps =>
    match p.getItem "alias" with
    | Except.error _ => []
    | Except.ok (Json.str al) =>
      Json.obj [("path", Json.str (relPath course_alias assignment_alias al))]
        :: problemsEntries course_alias assignment_alias ps
    | Except.ok _ => problemsEntries course_alias assignment_alias ps

/-- Manifest entries contributed by one assignment summary. -/
def assignmentEntries (env : Env) (course_alias : String) (assignment : Json) : List Json :=
  match assignment.getItem "alias" with
  | Except.error _ => []
  | Except.ok aliasJ =>
    match assignment.getItem "name" with
    | Except.error _ => []
    | Except.ok _ =>
      match aliasJ with
      | Json.str assignment_alias =>
        (match get_assignment_details env course_alias assignment_alias with
         | Except.error _ => []
         | Except.ok details =>
           match details.getD "problems" (Json.arr []) with
           | Except.error _ => []
           | Except.ok problemsJ =>
             match problemsJ.iter with
             | Except.error _ => []
             | Except.ok problems => problemsEntries course_alias assignment_alias problems)
      | _ => []

/-- Whether processing an assignment summary raises before its `try`
(missing `alias` or `name` key), aborting the remaining assignments of
its course. -/
def assignmentEscapes (assignment : Json) : Bool :=
  match assignment.getItem "alias" with
  | Except.error _ => true
  | Except.ok _ =>
    match assignment.getItem "name" with
    | Except.error _ => true
    | Except.ok _ => false

/-- Manifest entries contributed by an assignments list: stops at the
first summary whose alias or name extraction raises. -/
def assignmentsEntries (env : Env) (course_alias : String) : List Json → List Json
  | [] => []
  | a :: as =>
    if assignmentEscapes a then []
    else assignmentEntries env course_alias a ++ assignmentsEntries env course_alias as

/-- Manifest entries contributed by one course. -/
def courseEntries (env : Env) (course_alias : String) : List Json :=
  match env.course_details course_alias with
  | Except.error _ => []
  | Except.ok _ =>
    match get_assignments env course_alias with
    | Except.error _ => []
    | Except.ok assignmentsJ =>
      if assignmentsJ.falsy then []
      else
        match assignmentsJ.iter with
        | Except.error _ => []
        | Except.ok assignments => assignmentsEntries env course_alias assignments

/-- Manifest entries of a whole run over the configured course list. -/
def runEntries (env : Env) (course_aliases : List String) : List Json :=
  (course_aliases.map (courseEntries env)).flatten

/-- Last zip entry stored under a given name (`extractall` lets later
entries overwrite earlier ones). -/
def lastLookup : List (String × Json) → String → Option Json
  | [], _ => none
  | e :: es, n =>
    match lastLookup es n with
    | some j => some j
    | none => if e.1 = n then some e.2 else none

/-- Environment for claim C1: one course, one assignment, one problem
whose download endpoint answers 404. -/
def envC1 : Env where
  login_resp := Except.ok (200, Json.obj [("status", Json.str "ok")])
  course_details := fun _ => Except.ok (Json.obj [("name", Json.str "Course One")])
  list_assignments := fun _ => Except.ok (Json.obj
    [("assignments", Json.arr [Json.obj [("alias", Json.str "a1"), ("name", Json.str "A1")]])])
  assignment_details := fun _ _ => Except.ok (Json.obj
    [("problems", Json.arr [Json.obj [("alias", Json.str "p1")]])])
  download := fun _ => Except.ok (404, StreamBody.complete ZipData.bad)

/-- Environment for claim C2: one course `crs`, one assignment `hw`,
two problems; the first download answers 404, the second succeeds. -/
def envC2 : Env where
  login_resp := Except.ok (200, Json.obj [("status", Json.str "ok")])
  course_details := fun _ => Except.ok (Json.obj [("name", Json.str "Course Two")])
  list_assignments := fun _ => Except.ok (Json.obj
    [("assignments", Json.arr [Json.obj [("alias", Json.str "hw"), ("name", Json.str "HW")]])])
  assignment_details := fun _ _ => Except.ok (Json.obj
    [("problems", Json.arr [Json.obj [("alias", Json.str "pmiss")],
                            Json.obj [("alias", Json.str "pok")]])])
  download := fun al =>
    if al == "pmiss" then Except.ok (404, StreamBody.complete ZipData.bad)
    else Except.ok (200, StreamBody.complete (ZipData.good [("statement.txt", Json.str "hi")]))

/-- Environment for claim C7: the login POST itself returns HTTP 500
even though the JSON status field is the string `ok`. -/
def envC7 : Env where
  login_resp := Except.ok (500, Json.obj [("status", Json.str "ok")])
  course_details := fun _ => Except.error "unused"
  list_assignments := fun _ => Except.error "unused"
  assignment_details := fun _ _ => Except.error "unused"
  download := fun _ => Except.error "unused"

/-- Environment for claim C8: course `cc` lists two assignments; the
first summary lacks its `alias` key, the second is fully well-formed
with one downloadable problem. -/
def envC8 : Env where
  login_resp := Except.ok (200, Json.obj [("status", Json.str "ok")])
  course_details := fun _ => Except.ok (Json.obj [("name", Json.str "Course C8")])
  list_assignments := fun _ => Except.ok (Json.obj
    [("assignments", Json.arr [Json.obj [("name", Json.str "NoAlias")],
                               Json.obj [("alias", Json.str "a2"), ("name", Json.str "A2")]])])
  assignment_details := fun _ _ => Except.ok (Json.obj
    [("problems", Json.arr [Json.obj [("alias", Json.str "q1")]])])
  download := fun _ => Except.ok (200, StreamBody.complete (ZipData.good [("statement.txt", Json.str "hi")]))

/-- Environment for claim C9: the listing response is a JSON object
without an `assignments` field. -/
def envC9 : Env where
  login_resp := Except.ok (200, Json.obj [("status", Json.str "ok")])
  course_details := fun _ => Except.ok (Json.obj [("name", Json.str "Course C9")])
  list_assignments := fun _ => Except.ok (Json.obj [("status", Json.str "ok")])
  assignment_details := fun _ _ => Except.error "unused"
  download := fun _ => Except.error "unused"

/-- A generic single-course, single-assignment, single-problem
environment with a successful download; used by witnesses. -/
def envW : Env where
  login_resp := Except.ok (200, Json.obj [("status", Json.str "ok")])
  course_details := fun _ => Except.ok (Json.obj [("name", Json.str "Course W")])
  list_assignments := fun _ => Except.ok (Json.obj
    [("assignments", Json.arr [Json.obj [("alias", Json.str "aw"), ("name", Json.str "AW")]])])
  assignment_details := fun _ _ => Except.ok (Json.obj
    [("problems", Json.arr [Json.obj [("alias", Json.str "pw")]])])
  download := fun _ => Except.ok (200, StreamBody.complete (ZipData.good [("settings.json",
    Json.obj [("alias", Json.str "stored"), ("title", Json.str "Stored Title")])]))

/-- The filesystem update performed by `get_course_details` on success:
create the course folder and persist `course_settings.json`. -/
def courseFsUpd (fs : FS) (course_alias : String) (details : Json) : FS :=
  (fs.makedirs (pjoin "Courses" course_alias)).writeFile
    (pjoin (pjoin "Courses" course_alias) "course_settings.json") (FileData.json details)

/-- Archive used by the C3 counterexample: it carries a settings file
whose alias and title differ from the problem alias. -/
def zipC3 : ZipData := ZipData.good
  [("settings.json", Json.obj [("alias", Json.str "old"), ("title", Json.str "Old Title")])]

theorem dropWhile_head_false (p : Char → Bool) :
    ∀ (l : List Char) (c : Char) (t : List Char), l.dropWhile p = c :: t → p c = false := by
  intro l
  induction l with
  | nil => intro c t h; simp [List.dropWhile] at h
  | cons a l ih =>
    intro c t h
    cases hp : p a with
    | true => rw [List.dropWhile_cons_of_pos hp] at h; exact ih c t h
    | false =>
      rw [List.dropWhile_cons_of_neg (by simp [hp])] at h
      cases h
      exact hp

theorem head?_dropWhile_false (p : Char → Bool) (l : List Char) (c : Char)
    (h : (l.dropWhile p).head? = some c) : p c = false := by
  cases hm : l.dropWhile p with
  | nil => rw [hm] at h; simp at h
  | cons a t =>
    rw [hm] at h
    simp at h
    exact h ▸ dropWhile_head_false p l a t hm

theorem dropWhile_getLast?_eq (p : Char → Bool) :
    ∀ (l : List Char), l.dropWhile p ≠ [] → (l.dropWhile p).getLast? = l.getLast? := by
  intro l
  induction l with
  | nil => intro h; simp [List.dropWhile] at h
  | cons a l ih =>
    intro h
    cases hp : p a with
    | true =>
      rw [List.dropWhile_cons_of_pos hp] at h ⊢
      have hl : l ≠ [] := by
        intro he; rw [he] at h; simp [List.dropWhile] at h
      cases l with
      | nil => exact absurd rfl hl
      | cons b m => rw [ih h, List.getLast?_cons_cons]
    | false =>
      rw [List.dropWhile_cons_of_neg (by simp [hp])] at h ⊢

theorem pyStrip_mem {c : Char} {l : List Char} (h : c ∈ pyStrip l) : c ∈ l := by
  unfold pyStrip at h
  rw [List.mem_reverse] at h
  have h1 := (List.dropWhile_sublist py_isspace).mem h
  rw [List.mem_reverse] at h1
  exact (List.dropWhile_sublist py_isspace).mem h1

theorem pyStrip_head_false {l : List Char} {c : Char} {t : List Char}
    (h : pyStrip l = c :: t) : py_isspace c = false := by
  have hh : (pyStrip l).head? = some c := by rw [h]; rfl
  unfold pyStrip at hh
  rw [List.head?_reverse] at hh
  have hne : (l.dropWhile py_isspace).reverse.dropWhile py_isspace ≠ [] := by
    intro he; rw [he] at hh; simp at hh
  rw [dropWhile_getLast?_eq py_isspace _ hne, List.getLast?_reverse] at hh
  exact head?_dropWhile_false py_isspace _ c hh

theorem pyStrip_getLast?_false {l : List Char} {c : Char}
    (h : (pyStrip l).getLast? = some c) : py_isspace c = false := by
  unfold pyStrip at h
  rw [List.getLast?_reverse] at h
  exact head?_dropWhile_false py_isspace _ c h

theorem pyStrip_idem (l : List Char) : pyStrip (pyStrip l) = pyStrip l := by
  have h1 : (pyStrip l).dropWhile py_isspace = pyStrip l := by
    cases hr : pyStrip l with
    | nil => simp [List.dropWhile]
    | cons c t =>
      exact List.dropWhile_cons_of_neg (by simp [pyStrip_head_false hr])
  have h2 : (pyStrip l).reverse.dropWhile py_isspace = (pyStrip l).reverse := by
    cases hr : (pyStrip l).reverse with
    | nil => simp [List.dropWhile]
    | cons c t =>
      have hc : (pyStrip l).getLast? = some c := by
        rw [← List.head?_reverse, hr]; rfl
      exact List.dropWhile_cons_of_neg (by simp [pyStrip_getLast?_false hc])
  show ((((pyStrip l).dropWhile py_isspace).reverse).dropWhile py_isspace).reverse = pyStrip l
  rw [h1, h2, List.reverse_reverse]

theorem filter_after_remove (l : List (String × FileData)) (p : String) :
    (l.filter (fun e => !(e.1 == p))).filter (fun e => e.1 == p) = [] := by
  induction l with
  | nil => rfl
  | cons e l ih =>
    cases hep : (e.1 == p) with
    | true => simp [List.filter_cons, hep, ih]
    | false => simp [List.filter_cons, hep, ih]

theorem filter_remove_comm (l : List (String × FileData)) (p q : String) (h : q ≠ p) :
    (l.filter (fun e => !(e.1 == p))).filter (fun e => e.1 == q)
      = l.filter (fun e => e.1 == q) := by
  induction l with
  | nil => rfl
  | cons e l ih =>
    cases heq : (e.1 == q) with
    | true =>
      have hep : (e.1 == p) = false := by
        have : e.1 = q := by simpa using heq
        simp [this, h]
      simp [List.filter_cons, hep, heq, ih]
    | false =>
      cases hep : (e.1 == p) with
      | true => simp [List.filter_cons, hep, heq, ih]
      | false => simp [List.filter_cons, hep, heq, ih]

theorem any_filter_not (l : List (String × FileData)) (p : String) :
    (l.filter (fun e => !(e.1 == p))).any (fun e => e.1 == p) = false := by
  induction l with
  | nil => rfl
  | cons e l ih =>
    cases hep : (e.1 == p) with
    | true => simp [List.filter_cons, hep, ih]
    | false => simp [List.filter_cons, hep, ih]

theorem readFile_writeFile_same (fs : FS) (p : String) (d : FileData) :
    (fs.writeFile p d).readFile p = some d := by
  unfold FS.writeFile FS.readFile
  rw [List.filter_append, filter_after_remove]
  simp

theorem readFile_writeFile_ne (fs : FS) (p q : String) (d : FileData) (h : q ≠ p) :
    (fs.writeFile p d).readFile q = fs.readFile q := by
  unfold FS.writeFile FS.readFile
  rw [List.filter_append, filter_remove_comm _ _ _ h]
  have : (q == p) = false := by simp [h]
  simp [List.filter_cons, BEq.symm_false, this]

theorem readFile_removeFile_ne (fs : FS) (p q : String) (h : q ≠ p) :
    (fs.removeFile p).readFile q = fs.readFile q := by
  unfold FS.removeFile FS.readFile
  rw [filter_remove_comm _ _ _ h]

theorem fileExists_removeFile (fs : FS) (p : String) :
    (fs.removeFile p).fileExists p = false := by
  unfold FS.removeFile FS.fileExists
  exact any_filter_not _ _

theorem pjoin_inj (f a b : String) (h : pjoin f a = pjoin f b) : a = b := by
  unfold pjoin at h
  have hd := congrArg String.data h
  simp only [String.data_append] at hd
  have := List.append_cancel_left hd
  cases a with
  | mk da =>
    cases b with
    | mk db => exact congrArg String.mk (by simpa using this)

theorem readFile_extractall (folder n : String) :
    ∀ (entries : List (String × Json)) (fs : FS),
      (extractall fs folder entries).readFile (pjoin folder n)
        = match lastLookup entries n with
          | some j => some (FileData.json j)
          | none => fs.readFile (pjoin folder n) := by
  intro entries
  induction entries with
  | nil => intro fs; simp [extractall, lastLookup]
  | cons e es ih =>
    intro fs
    show (extractall (fs.writeFile (pjoin folder e.1) (FileData.json e.2)) folder es).readFile _ = _
    rw [ih]
    cases hll : lastLookup es n with
    | some j => simp [lastLookup, hll]
    | none =>
      by_cases he : e.1 = n
      · subst he
        rw [readFile_writeFile_same]
        simp [lastLookup, hll]
      · have hne : pjoin folder n ≠ pjoin folder e.1 := by
          intro hh
          exact he (pjoin_inj folder n e.1 hh).symm
        rw [readFile_writeFile_ne _ _ _ _ hne]
        simp [lastLookup, hll, he]

theorem duz_raised_none (pa af : String) (r : Except String (Nat × StreamBody)) (fs : FS) :
    (download_and_unzip pa af r fs).raised = none := by
  unfold download_and_unzip
  rcases r with e | ⟨code, body⟩
  · rfl
  · dsimp only
    split
    · rfl
    · split
      · rfl
      · rcases body with z | ⟨written, e⟩
        · cases z <;> rfl
        · rfl

theorem foldE_esc (f : RunState → Json → RunState × Option String) (s : RunState)
    (e : String) (xs : List Json) : foldE f (s, some e) xs = (s, some e) := by
  cases xs <;> rfl

theorem problems_fold_all (env : Env) (c a af : String) :
    ∀ (ps : List Json) (s : RunState),
      (foldE (process_problem env c a af) (s, none) ps).1.all_problems
        = s.all_problems ++ problemsEntries c a ps := by
  intro ps
  induction ps with
  | nil => intro s; simp [foldE, problemsEntries]
  | cons p ps ih =>
    intro s
    show (foldE _ (process_problem env c a af s p) ps).1.all_problems = _
    cases hal : p.getItem "alias" with
    | error e =>
      rw [show process_problem env c a af s p = (s, some e) from by
        simp [process_problem, hal]]
      rw [foldE_esc]
      simp [problemsEntries, hal]
    | ok v =>
      cases v
      case str al =>
        rw [show process_problem env c a af s p =
          ({ fs := (download_and_unzip al af (env.download al) s.fs).fs,
             all_problems := s.all_problems
               ++ [Json.obj [("path", Json.str (relPath c a al))]],
             log := s.log ++ (download_and_unzip al af (env.download al) s.fs).log }, none) from by
          simp [process_problem, hal, duz_raised_none]]
        rw [ih]
        simp [problemsEntries, hal]
      all_goals
        rw [show process_problem env c a af s p
          = ({ s with log := s.log
               ++ [(LogLevel.error, "Error while processing problem")] }, none) from by
          simp [process_problem, hal]]
        rw [ih]
        simp [problemsEntries, hal]

theorem process_assignment_all (env : Env) (c cf : String) (s : RunState) (a : Json) :
    (process_assignment env c cf s a).1.all_problems
      = s.all_problems ++ assignmentEntries env c a := by
  cases hal : a.getItem "alias" with
  | error e => simp [process_assignment, assignmentEntries, hal]
  | ok aliasJ =>
    cases hn : a.getItem "name" with
    | error e => simp [process_assignment, assignmentEntries, hal, hn]
    | ok nameJ =>
      cases aliasJ
      case str aa =>
        cases hd : get_assignment_details env c aa with
        | error e => simp [process_assignment, assignmentEntries, hal, hn, hd]
        | ok details =>
          cases hgd : details.getD "problems" (Json.arr []) with
          | error e => simp [process_assignment, assignmentEntries, hal, hn, hd, hgd]
          | ok problemsJ =>
            cases hit : problemsJ.iter with
            | error e => simp [process_assignment, assignmentEntries, hal, hn, hd, hgd, hit]
            | ok problems =>
              have hfold := problems_fold_all env c aa (pjoin cf aa) problems { s with fs := (s.fs.makedirs (pjoin cf aa)).writeFile (pjoin (pjoin cf aa) "assignment_settings.json") (FileData.json details) }
              rcases hf : foldE (process_problem env c aa (pjoin cf aa)) ({ s with fs := (s.fs.makedirs (pjoin cf aa)).writeFile (pjoin (pjoin cf aa) "assignment_settings.json") (FileData.json details) }, none) problems with ⟨s2, e2⟩
              rw [hf] at hfold
              cases e2 <;>
                simp [process_assignment, assignmentEntries, hal, hn, hd, hgd, hit, hf] <;>
                simpa using hfold
      all_goals simp [process_assignment, assignmentEntries, hal, hn]

theorem process_assignment_snd (env : Env) (c cf : String) (s : RunState) (a : Json) :
    ((process_assignment env c cf s a).2).isSome = assignmentEscapes a := by
  cases hal : a.getItem "alias" with
  | error e => simp [process_assignment, assignmentEscapes, hal]
  | ok aliasJ =>
    cases hn : a.getItem "name" with
    | error e => simp [process_assignment, assignmentEscapes, hal, hn]
    | ok nameJ =>
      cases aliasJ
      case str aa =>
        cases hd : get_assignment_details env c aa with
        | error e => simp [process_assignment, assignmentEscapes, hal, hn, hd]
        | ok details =>
          cases hgd : details.getD "problems" (Json.arr []) with
          | error e => simp [process_assignment, assignmentEscapes, hal, hn, hd, hgd]
          | ok problemsJ =>
            cases hit : problemsJ.iter with
            | error e => simp [process_assignment, assignmentEscapes, hal, hn, hd, hgd, hit]
            | ok problems =>
              rcases hf : foldE (process_problem env c aa (pjoin cf aa)) ({ s with fs := (s.fs.makedirs (pjoin cf aa)).writeFile (pjoin (pjoin cf aa) "assignment_settings.json") (FileData.json details) }, none) problems with ⟨s2, e2⟩
              cases e2 <;>
                simp [process_assignment, assignmentEscapes, hal, hn, hd, hgd, hit, hf]
      all_goals simp [process_assignment, assignmentEscapes, hal, hn]

theorem process_assignment_esc_state (env : Env) (c cf : String) (s : RunState) (a : Json)
    (h : assignmentEscapes a = true) : (process_assignment env c cf s a).1 = s := by
  cases hal : a.getItem "alias" with
  | error e => simp [process_assignment, hal]
  | ok aliasJ =>
    cases hn : a.getItem "name" with
    | error e => simp [process_assignment, hal, hn]
    | ok nameJ =>
      exfalso
      rw [assignmentEscapes, hal, hn] at h
      simp at h

theorem assignments_fold_all (env : Env) (c cf : String) :
    ∀ (as : List Json) (s : RunState),
      (foldE (process_assignment env c cf) (s, none) as).1.all_problems
        = s.all_problems ++ assignmentsEntries env c as := by
  intro as
  induction as with
  | nil => intro s; simp [foldE, assignmentsEntries]
  | cons a as ih =>
    intro s
    show (foldE _ (process_assignment env c cf s a) as).1.all_problems = _
    cases he : assignmentEscapes a with
    | true =>
      have h1 := process_assignment_esc_state env c cf s a he
      have h2 : ((process_assignment env c cf s a).2).isSome = true := by
        rw [process_assignment_snd, he]
      rcases Option.isSome_iff_exists.mp h2 with ⟨e, he2⟩
      have hpa : process_assignment env c cf s a = (s, some e) := by
        have : process_assignment env c cf s a
            = ((process_assignment env c cf s a).1, (process_assignment env c cf s a).2) := rfl
        rw [this, h1, he2]
      rw [hpa, foldE_esc]
      have hent : assignmentEntries env c a = [] := by
        unfold assignmentEntries
        unfold assignmentEscapes at he
        rcases hal : a.getItem "alias" with e1 | v1
        · simp
        · rw [hal] at he
          rcases hn : a.getItem "name" with e2 | v2
          · simp
          · rw [hn] at he; simp at he
      simp [assignmentsEntries, he]
    | false =>
      have h2 : (process_assignment env c cf s a).2 = none := by
        have := process_assignment_snd env c cf s a
        rw [he] at this
        exact Option.not_isSome_iff_eq_none.mp (by simp [this])
      have hpa : process_assignment env c cf s a = ((process_assignment env c cf s a).1, none) := by
        have : process_assignment env c cf s a
            = ((process_assignment env c cf s a).1, (process_assignment env c cf s a).2) := rfl
        rw [this, h2]
      rw [hpa, ih]
      rw [process_assignment_all]
      simp [assignmentsEntries, he]

theorem process_course_all (env : Env) (s : RunState) (c : String) :
    (process_course env s c).all_problems = s.all_problems ++ courseEntries env c := by
  cases hd : env.course_details c with
  | error e => simp [process_course, get_course_details, courseEntries, hd]
  | ok details =>
    cases ha : get_assignments env c with
    | error e => simp [process_course, get_course_details, courseEntries, hd, ha]
    | ok aj =>
      cases hfal : aj.falsy with
      | true => simp [process_course, get_course_details, courseEntries, hd, ha, hfal]
      | false =>
        cases hit : aj.iter with
        | error e => simp [process_course, get_course_details, courseEntries, hd, ha, hfal, hit]
        | ok as =>
          have hfold := assignments_fold_all env c (pjoin "Courses" c) as { s with fs := (s.fs.makedirs (pjoin "Courses" c)).writeFile (pjoin (pjoin "Courses" c) "course_settings.json") (FileData.json details) }
          rcases hf : foldE (process_assignment env c (pjoin "Courses" c)) ({ s with fs := (s.fs.makedirs (pjoin "Courses" c)).writeFile (pjoin (pjoin "Courses" c) "course_settings.json") (FileData.json details) }, none) as with ⟨s2, e2⟩
          rw [hf] at hfold
          cases e2 <;>
            simp [process_course, get_course_details, courseEntries, hd, ha, hfal, hit, hf] <;>
            simpa using hfold

theorem courses_fold_all (env : Env) :
    ∀ (cs : List String) (s : RunState),
      (cs.foldl (process_course env) s).all_problems = s.all_problems ++ runEntries env cs := by
  intro cs
  induction cs with
  | nil => intro s; simp [runEntries]
  | cons c cs ih =>
    intro s
    rw [List.foldl_cons, ih, process_course_all]
    simp [runEntries]

theorem main_run_manifest (env : Env) (course_aliases : List String) :
    Except.map RunState.all_problems (main_run env course_aliases)
      = Except.map (fun _ => runEntries env course_aliases) (login env) := by
  unfold main_run
  cases hl : login env with
  | error e => rfl
  | ok u =>
    simp only [Except.map]
    rw [show ({ course_aliases.foldl (process_course env) ⟨FS.empty.makedirs "Courses", [], []⟩ with fs := (course_aliases.foldl (process_course env) ⟨FS.empty.makedirs "Courses", [], []⟩).fs.writeFile "problems.json" (FileData.json (Json.obj [("problems", Json.arr (course_aliases.foldl (process_course env) ⟨FS.empty.makedirs "Courses", [], []⟩).all_problems)])) } : RunState).all_problems = (course_aliases.foldl (process_course env) ⟨FS.empty.makedirs "Courses", [], []⟩).all_problems from rfl]
    rw [courses_fold_all]
    rfl

theorem mainProblems_run (env : Env) (course_aliases : List String) :
    mainProblems env course_aliases
      = match login env with
        | Except.ok _ => runEntries env course_aliases
        | Except.error _ => [] := by
  have h := main_run_manifest env course_aliases
  unfold mainProblems
  cases hl : login env with
  | error e =>
    rw [hl] at h
    cases hm : main_run env course_aliases with
    | error e2 => rfl
    | ok s => rw [hm] at h; simp [Except.map] at h
  | ok u =>
    rw [hl] at h
    cases hm : main_run env course_aliases with
    | error e2 => rw [hm] at h; simp [Except.map] at h
    | ok s =>
      rw [hm] at h
      simp [Except.map] at h
      simpa using h

theorem assignmentEntries_dl (env : Env) (dl : String → Except String (Nat × StreamBody))
    (c : String) (a : Json) :
    assignmentEntries { env with download := dl } c a = assignmentEntries env c a := rfl

theorem assignmentsEntries_dl (env : Env) (dl : String → Except String (Nat × StreamBody))
    (c : String) : ∀ (as : List Json),
    assignmentsEntries { env with download := dl } c as = assignmentsEntries env c as := by
  intro as
  induction as with
  | nil => rfl
  | cons a as ih => simp [assignmentsEntries, assignmentEntries_dl, ih]

theorem courseEntries_dl (env : Env) (dl : String → Except String (Nat × StreamBody))
    (c : String) : courseEntries { env with download := dl } c = courseEntries env c := by
  unfold courseEntries
  rw [show ({ env with download := dl } : Env).course_details = env.course_details from rfl]
  rw [show get_assignments { env with download := dl } c = get_assignments env c from rfl]
  cases env.course_details c with
  | error e => rfl
  | ok d =>
    dsimp only
    cases get_assignments env c with
    | error e => rfl
    | ok aj =>
      dsimp only
      cases hfal : aj.falsy with
      | true => simp [hfal]
      | false =>
        simp only [hfal, Bool.false_eq_true, if_false]
        cases aj.iter with
        | error e => simp
        | ok as => simp [assignmentsEntries_dl]

theorem runEntries_dl (env : Env) (dl : String → Except String (Nat × StreamBody))
    (cs : List String) : runEntries { env with download := dl } cs = runEntries env cs := by
  unfold runEntries
  exact congrArg (fun f => (cs.map f).flatten) (funext (courseEntries_dl env dl))

/-- C1 counterexample: a concrete run whose only problem download
answers HTTP 404 still ends with one manifest entry for that problem,
refuting the claim that the manifest holds zero entries for problems
whose download returned not-found. -/
theorem C1_counterexample :
    envC1.download "p1" = Except.ok (404, StreamBody.complete ZipData.bad) ∧
    mainProblems envC1 ["c1"] = [Json.obj [("path", Json.str "Courses/c1/a1/p1")]] :=
  ⟨rfl, rfl⟩

/-- C1 (amended): the final manifest of every run holds exactly one
entry, in processing order, for every problem entry with a string alias
that the traversal reaches — regardless of the download outcome, 404
and download or unzip failures included (second conjunct: the manifest
is independent of the download side of the environment) — and no
entries when the run aborts at login. -/
theorem C1_manifest (env : Env) (cs : List String)
    (dl : String → Except String (Nat × StreamBody)) :
    Except.map RunState.all_problems (main_run env cs)
      = Except.map (fun _ => runEntries env cs) (login env) ∧
    runEntries { env with download := dl } cs = runEntries env cs :=
  ⟨main_run_manifest env cs, runEntries_dl env dl cs⟩

/-- C2 (amended): for every problem whose download answers HTTP 404
the filesystem is unchanged (no directory is created), exactly one
warning is logged, and no exception escapes — so sibling problems
continue — but the orchestrator still records a manifest entry for the
problem. -/
theorem C2_amended (env : Env) (c a af : String) (s : RunState) (p : Json) (al : String)
    (body : StreamBody) (hal : p.getItem "alias" = Except.ok (Json.str al))
    (hdl : env.download al = Except.ok (404, body)) :
    process_problem env c a af s p
      = ({ fs := s.fs,
           all_problems := s.all_problems ++ [Json.obj [("path", Json.str (relPath c a al))]],
           log := s.log ++ [(LogLevel.warning, warn404 al)] }, none) := by
  simp [process_problem, hal, download_and_unzip, hdl]

/-- C2 witness: the amended statement evaluated on a concrete 404
problem. -/
theorem C2_witness :
    process_problem envC2 "crs" "hw" "Courses/crs/hw" ⟨FS.empty, [], []⟩
        (Json.obj [("alias", Json.str "pmiss")])
      = ({ fs := FS.empty,
           all_problems := [Json.obj [("path", Json.str (relPath "crs" "hw" "pmiss"))]],
           log := [(LogLevel.warning, warn404 "pmiss")] }, none) :=
  C2_amended envC2 "crs" "hw" "Courses/crs/hw" ⟨FS.empty, [], []⟩
    (Json.obj [("alias", Json.str "pmiss")]) "pmiss"
    (StreamBody.complete ZipData.bad) rfl rfl

/-- C2 counterexample: a concrete run with a 404 problem and a
successful sibling: no directory exists for the 404 problem and the
sibling is synced, yet the manifest records an entry for the 404
problem, refuting the no-manifest-entry part of the claim. -/
theorem C2_counterexample :
    envC2.download "pmiss" = Except.ok (404, StreamBody.complete ZipData.bad) ∧
    mainProblems envC2 ["crs"]
      = [Json.obj [("path", Json.str "Courses/crs/hw/pmiss")],
         Json.obj [("path", Json.str "Courses/crs/hw/pok")]] ∧
    "Courses/crs/hw/pmiss" ∉ (mainFS envC2 ["crs"]).dirs :=
  ⟨rfl, rfl, by decide⟩

/-- C3 counterexample: syncing problem pX whose archive holds a
settings file with alias and title old leaves that file with alias old,
not pX: the final code never rewrites the settings file. -/
theorem C3_counterexample :
    FS.readFile (download_and_unzip "pX" "Courses/c/a" (Except.ok (200, StreamBody.complete zipC3)) FS.empty).fs
        "Courses/c/a/pX/settings.json"
      = some (FileData.json (Json.obj [("alias", Json.str "old"), ("title", Json.str "Old Title")])) ∧
    "old" ≠ "pX" :=
  ⟨rfl, by decide⟩

/-- C3 (amended): extraction is verbatim: after a successful sync
every extracted file — a settings file included — has exactly the
content stored in the archive; the alias and title fields are not
rewritten to the problem alias. -/
theorem C3_amended (pa af : String) (fs : FS) (entries : List (String × Json)) (code : Nat)
    (n : String) (j : Json)
    (h404 : code ≠ 404) (hrs : raise_for_status code = false)
    (hn : lastLookup entries n = some j) (hz : n ≠ pa ++ ".zip") :
    FS.readFile (download_and_unzip pa af
          (Except.ok (code, StreamBody.complete (ZipData.good entries))) fs).fs
        (pjoin (pjoin af (sanitize_filename pa)) n)
      = some (FileData.json j) := by
  unfold download_and_unzip
  dsimp only
  rw [if_neg h404, if_neg (by simp [hrs])]
  dsimp only
  rw [readFile_removeFile_ne _ _ _
    (fun hh => hz (pjoin_inj (pjoin af (sanitize_filename pa)) n (pa ++ ".zip") hh))]
  rw [readFile_extractall]
  simp [hn]

/-- C3 witness: the amended statement evaluated on a concrete
archive holding a settings file. -/
theorem C3_witness :
    FS.readFile (download_and_unzip "pw" "Courses/cw/aw"
        (Except.ok (200, StreamBody.complete (ZipData.good
          [("settings.json", Json.obj [("alias", Json.str "stored"), ("title", Json.str "Stored Title")])])))
        FS.empty).fs
        (pjoin (pjoin "Courses/cw/aw" (sanitize_filename "pw")) "settings.json")
      = some (FileData.json (Json.obj [("alias", Json.str "stored"), ("title", Json.str "Stored Title")])) :=
  C3_amended "pw" "Courses/cw/aw" FS.empty
    [("settings.json", Json.obj [("alias", Json.str "stored"), ("title", Json.str "Stored Title")])]
    200 "settings.json" (Json.obj [("alias", Json.str "stored"), ("title", Json.str "Stored Title")])
    (by decide) rfl rfl (by decide)

/-- C4: for every sync in which the downloaded archive extracts
successfully, the temporary archive file does not exist in the problem
directory after the sync completes. -/
theorem C4_zip_removed (pa af : String) (fs : FS) (entries : List (String × Json)) (code : Nat)
    (h404 : code ≠ 404) (hrs : raise_for_status code = false) :
    FS.fileExists (download_and_unzip pa af
          (Except.ok (code, StreamBody.complete (ZipData.good entries))) fs).fs
        (pjoin (pjoin af (sanitize_filename pa)) (pa ++ ".zip")) = false := by
  unfold download_and_unzip
  dsimp only
  rw [if_neg h404, if_neg (by simp [hrs])]
  dsimp only
  exact fileExists_removeFile _ _

/-- C4 witness: the statement evaluated on a concrete successful
sync. -/
theorem C4_witness :
    FS.fileExists (download_and_unzip "pw" "Courses/cw/aw"
        (Except.ok (200, StreamBody.complete (ZipData.good [("statement.txt", Json.str "hello")])))
        FS.empty).fs
        (pjoin (pjoin "Courses/cw/aw" (sanitize_filename "pw")) ("pw" ++ ".zip")) = false :=
  C4_zip_removed "pw" "Courses/cw/aw" FS.empty [("statement.txt", Json.str "hello")] 200
    (by decide) rfl

/-- C5: for every sync in which the downloaded archive is corrupt,
the already-written temporary archive file is left on disk in the
problem directory, an error is logged, no exception escapes, and — last
conjunct — a problem with an alias never aborts the per-assignment
loop, so the failure is non-fatal to sibling problems. -/
theorem C5_corrupt_archive (pa af : String) (fs : FS) (code : Nat)
    (h404 : code ≠ 404) (hrs : raise_for_status code = false) :
    FS.readFile (download_and_unzip pa af (Except.ok (code, StreamBody.complete ZipData.bad)) fs).fs
        (pjoin (pjoin af (sanitize_filename pa)) (pa ++ ".zip"))
      = some (FileData.zip ZipData.bad) ∧
    (download_and_unzip pa af (Except.ok (code, StreamBody.complete ZipData.bad)) fs).log
      = [(LogLevel.error, unzipFailMsg (pjoin (pjoin af (sanitize_filename pa)) (pa ++ ".zip")))] ∧
    (download_and_unzip pa af (Except.ok (code, StreamBody.complete ZipData.bad)) fs).raised = none ∧
    (∀ (env : Env) (c a : String) (s : RunState) (p : Json) (al : String),
      p.getItem "alias" = Except.ok (Json.str al) →
      (process_problem env c a af s p).2 = none) := by
  refine ⟨?_, ?_, ?_, ?_⟩
  · unfold download_and_unzip
    dsimp only
    rw [if_neg h404, if_neg (by simp [hrs])]
    dsimp only
    exact readFile_writeFile_same _ _ _
  · unfold download_and_unzip
    dsimp only
    rw [if_neg h404, if_neg (by simp [hrs])]
  · exact duz_raised_none _ _ _ _
  · intro env c a s p al hal
    simp [process_problem, hal, duz_raised_none]

/-- C5 witness: the statement evaluated on a concrete corrupt
archive. -/
theorem C5_witness :
    FS.readFile (download_and_unzip "pw" "Courses/cw/aw" (Except.ok (200, StreamBody.complete ZipData.bad)) FS.empty).fs
        (pjoin (pjoin "Courses/cw/aw" (sanitize_filename "pw")) ("pw" ++ ".zip"))
      = some (FileData.zip ZipData.bad) ∧
    (download_and_unzip "pw" "Courses/cw/aw" (Except.ok (200, StreamBody.complete ZipData.bad)) FS.empty).raised = none :=
  ⟨(C5_corrupt_archive "pw" "Courses/cw/aw" FS.empty 200 (by decide) rfl).1,
   (C5_corrupt_archive "pw" "Courses/cw/aw" FS.empty 200 (by decide) rfl).2.2.1⟩

/-- C6 counterexample: a `RequestException` from `requests.get` during
a download is caught inside download_and_unzip — the result carries no
escaping exception (raised is none), only an error log entry — refuting
the claim that every transient network error is surfaced to the
caller. -/
theorem C6_counterexample :
    download_and_unzip "p6" "Courses/c6/a6" (Except.error "ConnectionError") FS.empty
      = ⟨FS.empty, [(LogLevel.error, dlFailMsg "p6")], none⟩ := rfl

/-- C6 (amended): the synchronizer performs no retries, and every
transient network error is caught by its own handler and logged;
nothing is surfaced to the caller.  Per path: a failure of the initial
GET, and any non-404 HTTP error status, happen before the filesystem is
touched, so it is unchanged; a `RequestException` raised mid-stream by
`iter_content` is caught by the same handler only after the problem
directory was created and the partial prefix of the archive was
written, so both stay on disk. -/
theorem C6_amended (pa af : String) (fs : FS) :
    (∀ e, download_and_unzip pa af (Except.error e) fs
        = ⟨fs, [(LogLevel.error, dlFailMsg pa)], none⟩) ∧
    (∀ code body, code ≠ 404 → raise_for_status code = true →
      download_and_unzip pa af (Except.ok (code, body)) fs
        = ⟨fs, [(LogLevel.error, dlFailMsg pa)], none⟩) ∧
    (∀ code written e, code ≠ 404 → raise_for_status code = false →
      download_and_unzip pa af (Except.ok (code, StreamBody.interrupted written e)) fs
        = ⟨(fs.makedirs (pjoin af (sanitize_filename pa))).writeFile
             (pjoin (pjoin af (sanitize_filename pa)) (pa ++ ".zip")) (FileData.zip written),
           [(LogLevel.error, dlFailMsg pa)], none⟩) := by
  refine ⟨?_, ?_, ?_⟩
  · intro e; rfl
  · intro code body h404 hrs
    unfold download_and_unzip
    dsimp only
    rw [if_neg h404, if_pos hrs]
  · intro code written e h404 hrs
    unfold download_and_unzip
    dsimp only
    rw [if_neg h404, if_neg (by simp [hrs])]

/-- C6 witness: the amended statement evaluated at HTTP status 500 and
at a concrete mid-stream interruption during a 200 response. -/
theorem C6_witness :
    download_and_unzip "p6w" "Courses/c6/a6"
        (Except.ok (500, StreamBody.complete ZipData.bad)) FS.empty
      = ⟨FS.empty, [(LogLevel.error, dlFailMsg "p6w")], none⟩ ∧
    download_and_unzip "p6w" "Courses/c6/a6"
        (Except.ok (200, StreamBody.interrupted ZipData.bad "ChunkedEncodingError")) FS.empty
      = ⟨(FS.empty.makedirs (pjoin "Courses/c6/a6" (sanitize_filename "p6w"))).writeFile
           (pjoin (pjoin "Courses/c6/a6" (sanitize_filename "p6w")) ("p6w" ++ ".zip"))
           (FileData.zip ZipData.bad),
         [(LogLevel.error, dlFailMsg "p6w")], none⟩ :=
  ⟨(C6_amended "p6w" "Courses/c6/a6" FS.empty).2.1 500 (StreamBody.complete ZipData.bad)
     (by decide) rfl,
   (C6_amended "p6w" "Courses/c6/a6" FS.empty).2.2 200 ZipData.bad "ChunkedEncodingError"
     (by decide) rfl⟩

/-- C7 counterexample: a login response with HTTP status 500 whose
JSON status field is the string ok still aborts the run with a non-zero
exit, refuting the claim that only a non-ok status field aborts and
that all other errors leave the exit code unaffected. -/
theorem C7_counterexample :
    envC7.login_resp = Except.ok (500, Json.obj [("status", Json.str "ok")]) ∧
    Json.get? (Json.obj [("status", Json.str "ok")]) "status" = some (Json.str "ok") ∧
    main_run envC7 ["c"] = Except.error "HTTPError" :=
  ⟨rfl, rfl, rfl⟩

/-- C7 (amended): the run exits non-zero exactly when login fails;
login fails when the status field of a 2xx login response is anything
other than the string ok, and also when the login request itself fails
with a transport error or a non-2xx status; after a successful login
every later error is caught and logged and the run completes
normally. -/
theorem C7_amended (env : Env) (cs : List String) :
    (∀ e, login env = Except.error e → main_run env cs = Except.error e) ∧
    exceptOk (main_run env cs) = exceptOk (login env) ∧
    (∀ code body, env.login_resp = Except.ok (code, body) →
      raise_for_status code = false →
      body.get? "status" ≠ some (Json.str "ok") →
      login env = Except.error "Login failed") ∧
    (∀ code body, env.login_resp = Except.ok (code, body) →
      raise_for_status code = true → login env = Except.error "HTTPError") := by
  refine ⟨?_, ?_, ?_, ?_⟩
  · intro e hl
    simp [main_run, hl]
  · cases hl : login env with
    | error e => simp [main_run, hl, exceptOk]
    | ok u => simp [main_run, hl, exceptOk]
  · intro code body hresp hrs hst
    unfold login
    rw [hresp]
    dsimp only
    rw [if_neg (by simp [hrs])]
    cases hg : body.get? "status" with
    | none => rfl
    | some v =>
      cases v
      case str st =>
        by_cases hok : st = "ok"
        · exact absurd (by rw [hg, hok]) hst
        · simp [hok]
      all_goals rfl
  · intro code body hresp hrs
    unfold login
    rw [hresp]
    dsimp only
    rw [if_pos hrs]

/-- C7 witness: the amended statement evaluated on the concrete
HTTP-500 login environment. -/
theorem C7_witness :
    main_run envC7 ["cw"] = Except.error "HTTPError" ∧
    exceptOk (main_run envC7 ["cw"]) = exceptOk (login envC7) ∧
    login envC7 = Except.error "HTTPError" := by
  refine ⟨?_, (C7_amended envC7 ["cw"]).2.1, ?_⟩
  · exact (C7_amended envC7 ["cw"]).1 "HTTPError"
      ((C7_amended envC7 ["cw"]).2.2.2 500 (Json.obj [("status", Json.str "ok")]) rfl rfl)
  · exact (C7_amended envC7 ["cw"]).2.2.2 500 (Json.obj [("status", Json.str "ok")]) rfl rfl

/-- C8 counterexample: a course whose first assignment summary lacks
its alias key: the KeyError escapes the per-assignment region, is
caught by the per-course handler, and the well-formed second assignment
— whose problem would download fine — is never processed (empty
manifest, no settings file), refuting the claim that an
assignment-level failure never aborts the course traversal. -/
theorem C8_counterexample :
    (Json.obj [("name", Json.str "NoAlias")]).getItem "alias" = Except.error "KeyError: alias" ∧
    (Json.obj [("alias", Json.str "a2"), ("name", Json.str "A2")]).getItem "alias"
      = Except.ok (Json.str "a2") ∧
    envC8.download "q1"
      = Except.ok (200, StreamBody.complete (ZipData.good [("statement.txt", Json.str "hi")])) ∧
    mainProblems envC8 ["cc"] = [] ∧
    FS.readFile (mainFS envC8 ["cc"]) "Courses/cc/a2/assignment_settings.json" = none :=
  ⟨rfl, rfl, rfl, rfl, rfl⟩

/-- C8 (amended): course-level containment is unconditional (the
manifest of a run splits over any partition of the course list); an
assignment-level failure is contained to its assignment provided the
summary carries alias and name keys; a problem-level failure is
contained to its problem provided the entry carries an alias key; a
summary without an alias key raises out of the per-assignment body,
aborting the remaining assignments of its course. -/
theorem C8_amended :
    (∀ (env : Env) (cs1 cs2 : List String),
      mainProblems env (cs1 ++ cs2) = mainProblems env cs1 ++ mainProblems env cs2) ∧
    (∀ (env : Env) (c cf : String) (s : RunState) (a : Json) (v w : Json),
      a.getItem "alias" = Except.ok v → a.getItem "name" = Except.ok w →
      (process_assignment env c cf s a).2 = none) ∧
    (∀ (env : Env) (c a af : String) (s : RunState) (p : Json) (v : Json),
      p.getItem "alias" = Except.ok v → (process_problem env c a af s p).2 = none) ∧
    (∀ (env : Env) (c cf : String) (s : RunState) (a : Json) (e : String),
      a.getItem "alias" = Except.error e → process_assignment env c cf s a = (s, some e)) := by
  refine ⟨?_, ?_, ?_, ?_⟩
  · intro env cs1 cs2
    rw [mainProblems_run, mainProblems_run, mainProblems_run]
    cases login env with
    | error e => rfl
    | ok u => simp [runEntries]
  · intro env c cf s a v w hal hn
    have h := process_assignment_snd env c cf s a
    rw [show assignmentEscapes a = false from by simp [assignmentEscapes, hal, hn]] at h
    exact Option.not_isSome_iff_eq_none.mp (by simp [h])
  · intro env c a af s p v hal
    cases v
    case str al => simp [process_problem, hal, duz_raised_none]
    all_goals simp [process_problem, hal]
  · intro env c cf s a e hal
    simp [process_assignment, hal]

/-- C8 witness: the amended statement evaluated on concrete course
lists and a concrete summary without an alias key. -/
theorem C8_witness :
    mainProblems envC2 (["crs"] ++ ["crs2"])
      = mainProblems envC2 ["crs"] ++ mainProblems envC2 ["crs2"] ∧
    (process_assignment envC8 "cc" "Courses/cc" ⟨FS.empty, [], []⟩
        (Json.obj [("name", Json.str "NoAlias")])).1 = RunState.mk FS.empty [] [] :=
  ⟨(C8_amended).1 envC2 ["crs"] ["crs2"],
   by rw [(C8_amended).2.2.2 envC8 "cc" "Courses/cc" ⟨FS.empty, [], []⟩
       (Json.obj [("name", Json.str "NoAlias")]) "KeyError: alias" rfl]⟩

/-- C9 counterexample: a listing response without an assignments
field makes get_assignments raise a KeyError, refuting the claim that
an absent assignments list is a non-raising terminal state. -/
theorem C9_counterexample :
    envC9.list_assignments "c9" = Except.ok (Json.obj [("status", Json.str "ok")]) ∧
    (Json.obj [("status", Json.str "ok")]).get? "assignments" = none ∧
    get_assignments envC9 "c9" = Except.error "KeyError: assignments" :=
  ⟨rfl, rfl, rfl⟩

/-- C9 (amended): get_assignments returns the assignments field of
the listing response when present; an empty list is a valid non-error
terminal state (warning logged, course skipped); an absent field raises
a KeyError that the per-course handler catches (error logged), and the
run continues. -/
theorem C9_amended :
    (∀ (env : Env) (c : String) (j : Json), env.list_assignments c = Except.ok j →
      get_assignments env c = j.getItem "assignments") ∧
    (∀ (env : Env) (c : String) (j d : Json) (s : RunState),
      env.course_details c = Except.ok d → env.list_assignments c = Except.ok j →
      j.getItem "assignments" = Except.ok (Json.arr []) →
      process_course env s c
        = { s with fs := courseFsUpd s.fs c d,
                   log := s.log ++ [(LogLevel.warning, "No assignments found in " ++ c)] }) ∧
    (∀ (env : Env) (c : String) (j d : Json) (s : RunState) (e : String),
      env.course_details c = Except.ok d → env.list_assignments c = Except.ok j →
      j.getItem "assignments" = Except.error e →
      process_course env s c
        = { s with fs := courseFsUpd s.fs c d,
                   log := s.log ++ [(LogLevel.error, "Failed to process course " ++ c)] }) := by
  refine ⟨?_, ?_, ?_⟩
  · intro env c j hl
    simp [get_assignments, hl]
  · intro env c j d s hd hl hga
    simp [process_course, get_course_details, hd, get_assignments, hl, hga, Json.falsy,
      courseFsUpd]
  · intro env c j d s e hd hl hga
    simp [process_course, get_course_details, hd, get_assignments, hl, hga, courseFsUpd]

/-- C9 witness: the amended statement evaluated on the concrete
environment without an assignments field. -/
theorem C9_witness :
    get_assignments envC9 "cw9" = (Json.obj [("status", Json.str "ok")]).getItem "assignments" ∧
    process_course envC9 ⟨FS.empty, [], []⟩ "cw9"
      = { RunState.mk FS.empty [] [] with
          fs := courseFsUpd FS.empty "cw9" (Json.obj [("name", Json.str "Course C9")]),
          log := [(LogLevel.error, "Failed to process course " ++ "cw9")] } :=
  ⟨(C9_amended).1 envC9 "cw9" (Json.obj [("status", Json.str "ok")]) rfl,
   (C9_amended).2.2 envC9 "cw9" (Json.obj [("status", Json.str "ok")])
     (Json.obj [("name", Json.str "Course C9")]) ⟨FS.empty, [], []⟩ "KeyError: assignments" rfl rfl rfl⟩

/-- C10: `sanitize_filename` returns only alphanumerics, spaces,
hyphens and underscores, with no leading or trailing whitespace, and is
idempotent. -/
theorem C10_sanitize (s : String) :
    (∀ c, c ∈ (sanitize_filename s).data →
      (py_isalnum c || c == ' ' || c == '-' || c == '_') = true) ∧
    (∀ c t, (sanitize_filename s).data = c :: t → py_isspace c = false) ∧
    (∀ c, (sanitize_filename s).data.getLast? = some c → py_isspace c = false) ∧
    sanitize_filename (sanitize_filename s) = sanitize_filename s := by
  refine ⟨?_, ?_, ?_, ?_⟩
  · intro c hc
    exact (List.mem_filter.mp (pyStrip_mem hc)).2
  · intro c t h
    exact pyStrip_head_false h
  · intro c h
    exact pyStrip_getLast?_false h
  · unfold sanitize_filename
    rw [show (String.mk (pyStrip (s.data.filter keepChar))).data
      = pyStrip (s.data.filter keepChar) from rfl]
    rw [List.filter_eq_self.mpr (fun a ha => (List.mem_filter.mp (pyStrip_mem ha)).2)]
    rw [pyStrip_idem]

/-- C10 witness: the statement evaluated on a concrete string. -/
theorem C10_witness :
    (py_isalnum 'a' || 'a' == ' ' || 'a' == '-' || 'a' == '_') = true ∧
    sanitize_filename (sanitize_filename "  ab c!_d  ") = sanitize_filename "  ab c!_d  " :=
  ⟨(C10_sanitize "  ab c!_d  ").1 'a' (by decide), (C10_sanitize "  ab c!_d  ").2.2.2⟩
